/-
Verification of the ngoogle traffic-generation control plane (Go sources)
against its natural-language specification.

The Go code is shallowly embedded: machine floats and `time.Duration` values
are modelled as exact rationals (ℚ, seconds), `time.Time` as rationals on an
absolute second axis, SQL tables as Lean lists, and fallible operations as
`Except`.  Each definition mirrors one Go function and keeps its name.
-/
import Mathlib

namespace Ngoogle

/-- Task status strings from `internal/model/model.go`. -/
inductive TaskStatus
  | pending
  | dispatched
  | running
  | done
  | failed
  | stopped
deriving DecidableEq, Repr

/-- Distribution strings from `internal/model/model.go`.  The Go type is a
string; `RateForTask` treats every value other than `ramp`/`diurnal` as flat,
so the three declared constants are exhaustive for its behaviour. -/
inductive Distribution
  | flat
  | ramp
  | diurnal
deriving DecidableEq, Repr

/-- The fields of `model.Task` read or written by the scheduler and the task
service.  Times are rational seconds; `Option` models the nullable `*time.Time`
pointers. -/
structure Task where
  id : String
  status : TaskStatus
  startAt : Option ℚ
  endAt : Option ℚ
  durationSec : ℤ
  totalBytesTarget : ℤ
  totalBytesDone : ℤ
  distribution : Distribution
  rampUpSec : ℤ
  rampDownSec : ℤ
  errorMessage : String
  dispatchedAt : Option ℚ
  startedAt : Option ℚ
  finishedAt : Option ℚ
  updatedAt : ℚ
deriving DecidableEq, Repr

/-- ProfilePoint from `internal/master/scheduler` (scheduler.go): a
`{offset_sec, rate_pct}` breakpoint of a diurnal curve. -/
structure ProfilePoint where
  offsetSec : ℚ
  ratePct : ℚ
deriving DecidableEq, Repr

/-- flatMultiplier from scheduler.go.  `elapsed` is in seconds. -/
def flatMultiplier (t : Task) (elapsed : ℚ) : ℚ :=
  let rampUp : ℚ := (t.rampUpSec : ℚ)
  let rampDown : ℚ := (t.rampDownSec : ℚ)
  let totalDur : ℚ :=
    match t.endAt, t.startedAt with
    | some e, some s => e - s
    | _, _ => (t.durationSec : ℚ)
  if elapsed < rampUp then
    elapsed / rampUp
  else if rampDown > 0 ∧ totalDur > 0 ∧ elapsed > totalDur - rampDown then
    let remaining := totalDur - elapsed
    if remaining ≤ 0 then 0 else remaining / rampDown
  else 1

/-- rampMultiplier from scheduler.go: identical to the flat formula. -/
def rampMultiplier (t : Task) (elapsed : ℚ) : ℚ :=
  flatMultiplier t elapsed

/-- Linear-interpolation scan of diurnalMultiplier: walks adjacent point pairs
and returns the interpolated value for the first segment containing `sec`. -/
def diurnalInterp (sec : ℚ) : List ProfilePoint → Option ℚ
  | p0 :: p1 :: rest =>
    if p0.offsetSec ≤ sec ∧ sec ≤ p1.offsetSec then
      some (p0.ratePct / 100 +
        (sec - p0.offsetSec) / (p1.offsetSec - p0.offsetSec) *
          (p1.ratePct - p0.ratePct) / 100)
    else diurnalInterp sec (p1 :: rest)
  | _ => none

/-- Last point's `rate_pct` (Go: `points[len(points)-1].RatePct`); only ever
used on a non-empty list. -/
def lastRatePct : List ProfilePoint → ℚ
  | [] => 0
  | [p] => p.ratePct
  | _ :: p :: rest => lastRatePct (p :: rest)

/-- diurnalMultiplier from scheduler.go. -/
def diurnalMultiplier (points : List ProfilePoint) (elapsed : ℚ) : ℚ :=
  match points with
  | [] => 1
  | _ =>
    match diurnalInterp elapsed points with
    | some v => v
    | none => lastRatePct points / 100

/-- RateForTask from scheduler.go. -/
def RateForTask (t : Task) (elapsed : ℚ) (points : List ProfilePoint) : ℚ :=
  match t.distribution with
  | Distribution.ramp => rampMultiplier t elapsed
  | Distribution.diurnal => diurnalMultiplier points elapsed
  | Distribution.flat => flatMultiplier t elapsed

/-- shouldStart from scheduler.go: false iff `start_at` is set and still in the
future. -/
def shouldStart (t : Task) (now : ℚ) : Bool :=
  match t.startAt with
  | some s => !(decide (now < s))
  | none => true

/-- shouldStop from scheduler.go. -/
def shouldStop (t : Task) (now : ℚ) : Bool :=
  (match t.endAt with
   | some e => decide (e < now)
   | none => false) ||
  (decide (0 < t.durationSec) &&
   (match t.startedAt with
    | some s => decide ((t.durationSec : ℚ) < now - s)
    | none => false)) ||
  (decide (0 < t.totalBytesTarget) && decide (t.totalBytesTarget ≤ t.totalBytesDone))

/-- Net effect of one `Scheduler.tick` iteration on a single task:
pending/dispatched tasks that should start are marked running with
`started_at = now`, running tasks that should stop are marked stopped with
`finished_at = now` (via `UpdateStatusWithTime`, which also touches
`updated_at`); every other task is untouched. -/
def tickTask (now : ℚ) (t : Task) : Task :=
  match t.status with
  | TaskStatus.pending | TaskStatus.dispatched =>
    if shouldStart t now then
      { t with status := TaskStatus.running, startedAt := some now, updatedAt := now }
    else t
  | TaskStatus.running =>
    if shouldStop t now then
      { t with status := TaskStatus.stopped, finishedAt := some now, updatedAt := now }
    else t
  | _ => t

namespace Scheduler

/-- Scheduler.tick from scheduler.go, as its net effect on the task table. -/
def tick (now : ℚ) (tasks : List Task) : List Task :=
  tasks.map (tickTask now)

end Scheduler

/-- Metric sample fields used by the task service (`model.TaskMetrics`). -/
structure TaskMetrics where
  taskId : String
  agentId : String
  bytesTotal : ℤ
  bytesDelta : ℤ
  requestCount : ℤ
  errorCount : ℤ
  recordedAt : ℚ
deriving DecidableEq, Repr

/-- Lookup by primary key (`taskStore.Get`); `sql.ErrNoRows` becomes the
"task not found" error. -/
def getTask (tasks : List Task) (id : String) : Except String Task :=
  match tasks.find? (fun t => t.id = id) with
  | some t => Except.ok t
  | none => Except.error "task not found"

/-- The timestamp column names the Go code passes to `UpdateStatusWithTime`. -/
inductive TimeField
  | dispatchedAtField
  | startedAtField
  | finishedAtField
deriving DecidableEq, Repr

/-- Write the selected timestamp column. -/
def setTimeField (t : Task) (f : TimeField) (ts : ℚ) : Task :=
  match f with
  | TimeField.dispatchedAtField => { t with dispatchedAt := some ts }
  | TimeField.startedAtField => { t with startedAt := some ts }
  | TimeField.finishedAtField => { t with finishedAt := some ts }

/-- taskStore.UpdateStatusWithTime: `UPDATE tasks SET status=?,<field>=?,
updated_at=? WHERE id=?`. -/
def updateStatusWithTime (tasks : List Task) (id : String) (st : TaskStatus)
    (ts : ℚ) (f : TimeField) : List Task :=
  tasks.map fun t =>
    if t.id = id then setTimeField { t with status := st, updatedAt := ts } f ts else t

/-- taskStore.UpdateBytes: `UPDATE tasks SET total_bytes_done=?,updated_at=?
WHERE id=?` — an unconditional overwrite. -/
def updateBytes (tasks : List Task) (id : String) (bytesTotal : ℤ) (now : ℚ) :
    List Task :=
  tasks.map fun t =>
    if t.id = id then { t with totalBytesDone := bytesTotal, updatedAt := now } else t

/-- taskStore.SetError. -/
def setError (tasks : List Task) (id : String) (msg : String) (now : ℚ) : List Task :=
  tasks.map fun t =>
    if t.id = id then { t with errorMessage := msg, updatedAt := now } else t

/-- Master-side state touched by `TaskService.RecordMetrics`: the task table
and the append-only `task_metrics` table. -/
structure MasterState where
  tasks : List Task
  taskMetrics : List TaskMetrics
deriving DecidableEq, Repr

namespace TaskService

/-- TaskService.Dispatch: requires `status == pending`, then transitions to
dispatched stamping `dispatched_at`. -/
def Dispatch (tasks : List Task) (taskID : String) (now : ℚ) :
    Except String (List Task) :=
  match getTask tasks taskID with
  | Except.error e => Except.error e
  | Except.ok t =>
    if t.status ≠ TaskStatus.pending then
      Except.error "task is not pending"
    else
      Except.ok (updateStatusWithTime tasks taskID TaskStatus.dispatched now
        TimeField.dispatchedAtField)

/-- TaskService.Stop: refuses tasks already in a terminal status, otherwise
transitions to stopped stamping `finished_at`. -/
def Stop (tasks : List Task) (taskID : String) (now : ℚ) :
    Except String (List Task) :=
  match getTask tasks taskID with
  | Except.error e => Except.error e
  | Except.ok t =>
    if t.status = TaskStatus.done ∨ t.status = TaskStatus.failed ∨
        t.status = TaskStatus.stopped then
      Except.error "task is already terminal"
    else
      Except.ok (updateStatusWithTime tasks taskID TaskStatus.stopped now
        TimeField.finishedAtField)

/-- TaskService.MarkRunning: a bare `UpdateStatusWithTime` with no status
precondition. -/
def MarkRunning (tasks : List Task) (taskID : String) (now : ℚ) : List Task :=
  updateStatusWithTime tasks taskID TaskStatus.running now TimeField.startedAtField

/-- TaskService.MarkDone: a bare `UpdateStatusWithTime` with no status
precondition. -/
def MarkDone (tasks : List Task) (taskID : String) (now : ℚ) : List Task :=
  updateStatusWithTime tasks taskID TaskStatus.done now TimeField.finishedAtField

/-- TaskService.MarkFailed: `SetError` then a bare `UpdateStatusWithTime`. -/
def MarkFailed (tasks : List Task) (taskID : String) (reason : String) (now : ℚ) :
    List Task :=
  updateStatusWithTime (setError tasks taskID reason now) taskID TaskStatus.failed
    now TimeField.finishedAtField

/-- TaskService.RecordMetrics: stamps `recorded_at = now`, inserts the sample,
then `UpdateBytes` on the task. -/
def RecordMetrics (st : MasterState) (m : TaskMetrics) (now : ℚ) : MasterState :=
  let stamped := { m with recordedAt := now }
  { tasks := updateBytes st.tasks stamped.taskId stamped.bytesTotal now,
    taskMetrics := st.taskMetrics ++ [stamped] }

end TaskService

/-- Largest finite IEEE-754 double, as an exact rational; Go's
`math.MaxFloat64`. -/
def maxFloat64 : ℚ := (2 ^ 53 - 1) * 2 ^ 971

/-- Token bucket state from `pkg/ratelimit` (tokens/capacity in bytes, rate in
bytes per second).  The `lastFill` timestamp is replaced by passing each fill
its elapsed time explicitly. -/
structure TokenBucket where
  tokens : ℚ
  capacity : ℚ
  rate : ℚ
deriving DecidableEq, Repr

namespace TokenBucket

/-- ratelimit.New: a rate of 0 or less Mbps is replaced by
`math.MaxFloat64/1e6` Mbps (effectively unlimited); capacity is
`bps * burstMultiplier`, floored at 64 KiB, and the bucket starts full. -/
def New (rateMbps burstMultiplier : ℚ) : TokenBucket :=
  let rateMbps := if rateMbps ≤ 0 then maxFloat64 / 1000000 else rateMbps
  let bps := rateMbps * 1000000 / 8
  let capacity := bps * burstMultiplier
  let capacity := if capacity < 65536 then 65536 else capacity
  { tokens := capacity, capacity := capacity, rate := bps }

/-- TokenBucket.SetRate: updates rate and capacity (2× the one-second rate)
and clamps excess tokens; no unlimited-rate fallback here. -/
def SetRate (tb : TokenBucket) (rateMbps : ℚ) : TokenBucket :=
  let bps := rateMbps * 1000000 / 8
  let capacity := bps * 2
  let tokens := if tb.tokens > capacity then capacity else tb.tokens
  { tokens := tokens, capacity := capacity, rate := bps }

/-- TokenBucket.fill: add `elapsed × rate` tokens, clamped to capacity. -/
def fill (tb : TokenBucket) (elapsed : ℚ) : TokenBucket :=
  let tokens := tb.tokens + elapsed * tb.rate
  let tokens := if tokens > tb.capacity then tb.capacity else tokens
  { tb with tokens := tokens }

end TokenBucket

/-- Outcome of `TokenBucket.Wait`: either the success branch deducted the
tokens and returned nil, or the context was cancelled and `ctx.Err()` is
returned. -/
inductive WaitResult
  | consumed (tb : TokenBucket)
  | ctxErr (tb : TokenBucket)
deriving DecidableEq, Repr

/-- True when the wait ended with the context's error. -/
def WaitResult.isCtxErr : WaitResult → Bool
  | WaitResult.ctxErr _ => true
  | WaitResult.consumed _ => false

namespace TokenBucket

/-- TokenBucket.Wait as a loop over the fill-to-fill elapsed times observed at
each iteration (`elapses`); the context is cancelled once the list is
exhausted.  Each iteration refills, takes the success branch when
`tokens ≥ n`, and otherwise sleeps and retries. -/
def waitRun (tb : TokenBucket) (n : ℤ) : List ℚ → WaitResult
  | [] => WaitResult.ctxErr tb
  | e :: rest =>
    let tb := tb.fill e
    if (n : ℚ) ≤ tb.tokens then
      WaitResult.consumed { tb with tokens := tb.tokens - (n : ℚ) }
    else waitRun tb n rest

end TokenBucket

/-- mapArch from `internal/master/provision`: uname output to GOARCH. -/
def mapArch (uname : String) : String :=
  if uname = "x86_64" then "amd64"
  else if uname = "aarch64" ∨ uname = "arm64" then "arm64"
  else "amd64"

/-- Combined stdout+stderr buffer of one SSH session. -/
structure SSHSession where
  buf : String
deriving DecidableEq, Repr

/-- runSSH from `internal/master/provision`.  The Go body is
`return buf.String(), sess.Run(cmd)`: both return operands are evaluated
left-to-right, so the returned output string is the buffer's contents *before*
`sess.Run` writes the remote command's output into it.  `cmdOutput` is what
the remote command writes to stdout/stderr during Run. -/
def runSSH (cmdOutput : String) : String × SSHSession :=
  let sess : SSHSession := { buf := "" }
  let ret := sess.buf
  let sess := { sess with buf := sess.buf ++ cmdOutput }
  (ret, sess)

/-- White-space test of Go's `strings.TrimSpace`, restricted to the ASCII
white-space characters (all that `uname -m` output can carry). -/
def isGoSpace (c : Char) : Bool :=
  c = ' ' || c = '\t' || c = '\n' || c = '\x0b' || c = '\x0c' || c = '\r'

/-- Go `strings.TrimSpace`: drop leading and trailing white space. -/
def trimSpace (s : String) : String :=
  String.mk (((s.data.dropWhile isGoSpace).reverse.dropWhile isGoSpace).reverse)

/-- Character-list prefix test (used by `replaceAll`). -/
def charsHavePrefix : List Char → List Char → Bool
  | [], _ => true
  | _ :: _, [] => false
  | p :: ps, c :: cs => p = c && charsHavePrefix ps cs

/-- Fuel-indexed worker of `replaceAll`: replaces each leftmost,
non-overlapping occurrence of `pat`.  The fuel is an upper bound on the number
of characters scanned, so `s.length` suffices. -/
def replaceChars (pat rep : List Char) : ℕ → List Char → List Char
  | 0, rest => rest
  | _ + 1, [] => []
  | fuel + 1, c :: cs =>
    if charsHavePrefix pat (c :: cs) then
      rep ++ replaceChars pat rep fuel ((c :: cs).drop pat.length)
    else c :: replaceChars pat rep fuel cs

/-- Go `strings.ReplaceAll` for a non-empty pattern (the only way the source
calls it): replace every leftmost, non-overlapping occurrence. -/
def replaceAll (s pattern repl : String) : String :=
  if pattern = "" then s
  else String.mk (replaceChars pattern.data repl.data s.data.length s.data)

/-- Architecture the download_binary step of `Service.run` actually uses:
`mapArch(strings.TrimSpace(archOut))` where `archOut` is the first component
of `runSSH(client, "uname -m")`. -/
def downloadBinaryArch (unameOutput : String) : String :=
  mapArch (trimSpace (runSSH unameOutput).fst)

/-- URL the download_binary step downloads:
`strings.ReplaceAll(s.downloadURL, "{arch}", goArch)`. -/
def downloadBinaryURL (template unameOutput : String) : String :=
  replaceAll template "{arch}" (downloadBinaryArch unameOutput)

/-- Default download URL template from `provision.NewService`. -/
def defaultDownloadURL : String :=
  "https://github.com/SHIINMASHIRO/New-Google-LF/releases/latest/download/agent-linux-{arch}"

/-- Provision job status strings from `internal/model/model.go`. -/
inductive ProvisionStatus
  | pending
  | running
  | success
  | failed
deriving DecidableEq, Repr

/-- Fields of `model.ProvisionJob`. -/
structure ProvisionJob where
  id : String
  hostIP : String
  sshPort : ℤ
  sshUser : String
  authType : String
  credentialRef : String
  status : ProvisionStatus
  currentStep : String
  log : String
  agentId : String
  failedStep : String
  createdAt : ℚ
  updatedAt : ℚ
deriving DecidableEq, Repr

/-- provisionJobStore.Get; `sql.ErrNoRows` becomes "provision job not found". -/
def getProvisionJob (jobs : List ProvisionJob) (id : String) :
    Except String ProvisionJob :=
  match jobs.find? (fun j => j.id = id) with
  | some j => Except.ok j
  | none => Except.error "provision job not found"

/-- provisionJobStore.ResetForRetry: `UPDATE provision_jobs SET status=pending,
current_step='created',log='',agent_id='',failed_step='',updated_at=?
WHERE id=?`. -/
def resetForRetry (jobs : List ProvisionJob) (id : String) (now : ℚ) :
    List ProvisionJob :=
  jobs.map fun j =>
    if j.id = id then
      { j with status := ProvisionStatus.pending, currentStep := "created",
               log := "", agentId := "", failedStep := "", updatedAt := now }
    else j

/-- Outcome of one `provision.Service.Retry` call: the value (or error)
returned to the caller, the job table after the call, and whether the async
worker goroutine was relaunched (`go s.run`). -/
structure RetryOutcome where
  result : Except String ProvisionJob
  jobs : List ProvisionJob
  workerStarted : Bool
deriving Repr

namespace ProvisionService

/-- provision.Service.Retry: only `failed` jobs may be retried (any other
status errors without touching the store); on success the store row is reset
via `ResetForRetry`, the worker is relaunched, and the in-memory job value is
returned with status/step/log/failed_step updated. -/
def Retry (jobs : List ProvisionJob) (jobID : String) (now : ℚ) : RetryOutcome :=
  match getProvisionJob jobs jobID with
  | Except.error e => { result := Except.error e, jobs := jobs, workerStarted := false }
  | Except.ok job =>
    if job.status ≠ ProvisionStatus.failed then
      { result := Except.error "only failed jobs can be retried",
        jobs := jobs, workerStarted := false }
    else
      { result := Except.ok { job with status := ProvisionStatus.pending,
                                       currentStep := "created", log := "",
                                       failedStep := "" },
        jobs := resetForRetry jobs jobID now,
        workerStarted := true }

end ProvisionService

/-- Agent status strings from `internal/model/model.go`. -/
inductive AgentStatus
  | online
  | offline
deriving DecidableEq, Repr

/-- Fields of `model.Agent`. -/
structure Agent where
  id : String
  hostname : String
  ip : String
  port : ℤ
  token : String
  status : AgentStatus
  version : String
  currentRateMbps : ℚ
  lastHeartbeat : ℚ
  createdAt : ℚ
  updatedAt : ℚ
deriving DecidableEq, Repr

/-- Row of the `bandwidth_samples` table (`model.BandwidthSample`). -/
structure BandwidthSample where
  agentId : String
  rateMbps : ℚ
  recordedAt : ℚ
deriving DecidableEq, Repr

/-- agentStore.Get; `sql.ErrNoRows` becomes "agent not found". -/
def getAgent (agents : List Agent) (id : String) : Except String Agent :=
  match agents.find? (fun a => a.id = id) with
  | some a => Except.ok a
  | none => Except.error "agent not found"

/-- State touched by the heartbeat path: the agent table and the append-only
bandwidth sample table. -/
structure HeartbeatState where
  agents : List Agent
  bandwidth : List BandwidthSample
deriving DecidableEq, Repr

namespace AgentService

/-- AgentService.ValidateToken: fetches the agent (propagating the store's
not-found error) and compares tokens by equality. -/
def ValidateToken (agents : List Agent) (agentID token : String) :
    Except String Unit :=
  match getAgent agents agentID with
  | Except.error e => Except.error e
  | Except.ok a =>
    if a.token ≠ token then Except.error "invalid token" else Except.ok ()

/-- AgentService.Heartbeat: `UpdateStatus(online, now)`, `UpdateRate`, then a
bandwidth sample insert.  The modelled store operations cannot fail. -/
def Heartbeat (st : HeartbeatState) (agentID : String) (rateMbps : ℚ) (now : ℚ) :
    HeartbeatState :=
  { agents := st.agents.map fun a =>
      if a.id = agentID then
        { a with status := AgentStatus.online, lastHeartbeat := now,
                 currentRateMbps := rateMbps, updatedAt := now }
      else a,
    bandwidth := st.bandwidth ++ [{ agentId := agentID, rateMbps := rateMbps,
                                    recordedAt := now }] }

end AgentService

/-- HTTP response written by the handler helpers: status code, plus the
message of the `{"error": msg}` body when `respondErr` was used. -/
structure HttpResponse where
  status : ℕ
  errorBody : Option String
deriving DecidableEq, Repr

namespace AgentHandler

/-- AgentHandler.Heartbeat from `internal/master/handler/agents.go`: any
`ValidateToken` failure — including the store's not-found error — is mapped to
HTTP 401 with body "invalid token" before the service heartbeat runs. -/
def Heartbeat (st : HeartbeatState) (agentID token : String) (rateMbps : ℚ)
    (now : ℚ) : HttpResponse × HeartbeatState :=
  match AgentService.ValidateToken st.agents agentID token with
  | Except.error _ => ({ status := 401, errorBody := some "invalid token" }, st)
  | Except.ok _ =>
    ({ status := 200, errorBody := none },
      AgentService.Heartbeat st agentID rateMbps now)

end AgentHandler

/-- bandwidthStore.PurgeOlderThan: `DELETE FROM bandwidth_samples WHERE
recorded_at < ?`. -/
def PurgeOlderThan (samples : List BandwidthSample) (before : ℚ) :
    List BandwidthSample :=
  samples.filter fun s => !(decide (s.recordedAt < before))

/-- Cutoff used by each iteration of `DashboardService.RunPurge`:
`time.Now().Add(-7 * 24 * time.Hour)`. -/
def purgeCutoff (now : ℚ) : ℚ := now - 7 * 24 * 3600

/-- Period of the `RunPurge` ticker, in seconds (`time.NewTicker(time.Hour)`). -/
def purgePeriodSec : ℚ := 3600

/-- Net effect of one `DashboardService.RunPurge` tick on the sample table. -/
def runPurgeTick (now : ℚ) (samples : List BandwidthSample) :
    List BandwidthSample :=
  PurgeOlderThan samples (purgeCutoff now)

/-- Observable fates of the single yt-dlp subprocess of one
`YoutubeExecutor.Run` call (after a successful arg build): the pipe or start
steps fail, `cmd.Wait()` returns nil (clean exit), or `cmd.Wait()` returns an
error with or without `cmdCtx.Err()` set (the deadline/cancel fired, or the
subprocess died early on its own). -/
inductive YtEvent
  | stdoutPipeErr
  | stderrPipeErr
  | startErr
  | waitClean
  | waitErrCtxDone
  | waitErrEarlyExit
deriving DecidableEq, Repr

/-- What one `YoutubeExecutor.Run` call did: its return value (`none` = nil)
and how many times it invoked `cmd.Start`. -/
structure YtRunTrace where
  result : Option String
  spawns : ℕ
deriving DecidableEq, Repr

namespace YoutubeExecutor

/-- YoutubeExecutor.Run from `internal/agent/executor/youtube.go`, as its
control flow over the subprocess fate: an empty URL is rejected up front;
otherwise exactly one subprocess is spawned and `cmd.Wait()`'s outcome decides
the return — nil when the wait error is nil or `cmdCtx.Err() != nil`, an
"yt-dlp exited" error otherwise.  The body contains no sleep/re-spawn loop. -/
def Run (targetURL : String) (ev : YtEvent) : YtRunTrace :=
  if targetURL = "" then
    { result := some "target_url is required for youtube task", spawns := 0 }
  else
    match ev with
    | YtEvent.stdoutPipeErr => { result := some "stdout pipe", spawns := 0 }
    | YtEvent.stderrPipeErr => { result := some "stderr pipe", spawns := 0 }
    | YtEvent.startErr => { result := some "start yt-dlp", spawns := 1 }
    | YtEvent.waitClean => { result := none, spawns := 1 }
    | YtEvent.waitErrCtxDone => { result := none, spawns := 1 }
    | YtEvent.waitErrEarlyExit => { result := some "yt-dlp exited", spawns := 1 }

end YoutubeExecutor

/-
Concrete fixtures used by counterexamples and witnesses.
-/

/-- A task with every field at its zero value, pending. -/
def baseTask : Task :=
  { id := "t1", status := TaskStatus.pending, startAt := none, endAt := none,
    durationSec := 0, totalBytesTarget := 0, totalBytesDone := 0,
    distribution := Distribution.flat, rampUpSec := 0, rampDownSec := 0,
    errorMessage := "", dispatchedAt := none, startedAt := none,
    finishedAt := none, updatedAt := 0 }

/-- A task already in the terminal status done. -/
def doneTask : Task := { baseTask with status := TaskStatus.done }

/-- A diurnal-distribution task. -/
def diurnalTask : Task := { baseTask with distribution := Distribution.diurnal }

/-- A task that has reported 100 bytes done. -/
def task100 : Task := { baseTask with totalBytesDone := 100 }

/-- Master state holding only `task100`. -/
def state100 : MasterState := { tasks := [task100], taskMetrics := [] }

/-- A metrics report for `t1` carrying a `bytes_total` below the stored 100. -/
def metric50 : TaskMetrics :=
  { taskId := "t1", agentId := "a1", bytesTotal := 50, bytesDelta := 0,
    requestCount := 1, errorCount := 0, recordedAt := 0 }

/-- A failed provision job with every connection field populated. -/
def failedJob : ProvisionJob :=
  { id := "j1", hostIP := "10.0.0.9", sshPort := 22, sshUser := "root",
    authType := "key", credentialRef := "c1", status := ProvisionStatus.failed,
    currentStep := "ssh_check", log := "[FAIL] SSH connect failed",
    agentId := "", failedStep := "ssh_check", createdAt := 3, updatedAt := 4 }

/-- A registered agent. -/
def agentA1 : Agent :=
  { id := "a1", hostname := "h1", ip := "10.0.0.5", port := 9090,
    token := "tok-a1", status := AgentStatus.offline, version := "1.0",
    currentRateMbps := 0, lastHeartbeat := 0, createdAt := 0, updatedAt := 0 }

/-- Heartbeat state holding only `agentA1` and no samples. -/
def hbState : HeartbeatState := { agents := [agentA1], bandwidth := [] }

/-- Two bandwidth samples, one stale (t = 0) and one fresh (t = 10). -/
def staleSample : BandwidthSample := { agentId := "a1", rateMbps := 1, recordedAt := 0 }

/-- The fresh sample of the purge witness. -/
def freshSample : BandwidthSample := { agentId := "a1", rateMbps := 2, recordedAt := 10 }

/-
C4 — download_binary architecture substitution.
-/

/-- C4: the `mapArch` table itself agrees with the claimed mapping
(x86_64→amd64, aarch64/arm64→arm64, default amd64), but `runSSH` returns the
session buffer captured *before* `sess.Run` executes, so the `uname -m` output
never reaches `mapArch`: for a host printing `aarch64` the step substitutes
amd64, not arm64, into the URL template. -/
theorem c4_download_arch_code_bug :
    mapArch "x86_64" = "amd64" ∧ mapArch "aarch64" = "arm64" ∧
    mapArch "arm64" = "arm64" ∧ mapArch "riscv64" = "amd64" ∧
    (runSSH "aarch64\n").fst = "" ∧
    downloadBinaryArch "aarch64\n" = "amd64" ∧
    downloadBinaryURL defaultDownloadURL "aarch64\n" =
      "https://github.com/SHIINMASHIRO/New-Google-LF/releases/latest/download/agent-linux-amd64" := by
  refine ⟨rfl, ?_, ?_, rfl, rfl, rfl, by decide⟩ <;> decide

/-
C3 — YouTube executor subprocess lifecycle.
-/

/-- C3 counterexample: with a valid URL, a subprocess that exits before the
deadline without cancellation makes `Run` return at once — cleanly exited
yt-dlp yields nil after a single spawn (no 2 s sleep / re-spawn), and an
abnormal early exit yields an error even though the setup was valid. -/
theorem c3_counterexample :
    YoutubeExecutor.Run "https://www.youtube.com/watch" YtEvent.waitClean
      = { result := none, spawns := 1 } ∧
    YoutubeExecutor.Run "https://www.youtube.com/watch" YtEvent.waitErrEarlyExit
      = { result := some "yt-dlp exited", spawns := 1 } := by
  constructor <;> decide

/-- C3 (amended): `YoutubeExecutor.Run` spawns yt-dlp at most once — there is
no re-spawn loop — and for a non-empty URL it returns nil exactly when the
subprocess exited cleanly or the context/deadline caused the exit; an empty
URL is rejected with an error before any spawn. -/
theorem c3_youtube_run_amended (url : String) (ev : YtEvent) (h : url ≠ "") :
    (YoutubeExecutor.Run url ev).spawns ≤ 1 ∧
    ((YoutubeExecutor.Run url ev).result = none ↔
      ev = YtEvent.waitClean ∨ ev = YtEvent.waitErrCtxDone) ∧
    YoutubeExecutor.Run "" ev
      = { result := some "target_url is required for youtube task", spawns := 0 } := by
  cases ev <;> simp [YoutubeExecutor.Run, h]

/-- C3 witness: the amended theorem applied at a concrete URL and event. -/
theorem c3_youtube_run_amended_witness :
    (YoutubeExecutor.Run "https://www.youtube.com/watch" YtEvent.waitClean).spawns ≤ 1 ∧
    ((YoutubeExecutor.Run "https://www.youtube.com/watch" YtEvent.waitClean).result = none ↔
      YtEvent.waitClean = YtEvent.waitClean ∨ YtEvent.waitClean = YtEvent.waitErrCtxDone) ∧
    YoutubeExecutor.Run "" YtEvent.waitClean
      = { result := some "target_url is required for youtube task", spawns := 0 } :=
  c3_youtube_run_amended "https://www.youtube.com/watch" YtEvent.waitClean (by decide)

/-
C8 — bandwidth purge retention.
-/

/-- C8: `PurgeOlderThan` with cutoff `c` removes exactly the samples with
`recorded_at < c` — what remains is a sublist of the input containing every
sample with `recorded_at ≥ c` and none below — and one `RunPurge` tick keeps
precisely the samples at least `now − 7 days` old (period: hourly). -/
theorem c8_purge_retention (samples : List BandwidthSample) (c now : ℚ) :
    (∀ s ∈ PurgeOlderThan samples c, ¬ s.recordedAt < c) ∧
    (∀ s ∈ samples, ¬ s.recordedAt < c → s ∈ PurgeOlderThan samples c) ∧
    (∀ s ∈ samples, s.recordedAt < c → s ∉ PurgeOlderThan samples c) ∧
    List.Sublist (PurgeOlderThan samples c) samples ∧
    (∀ s, s ∈ runPurgeTick now samples ↔
      s ∈ samples ∧ ¬ s.recordedAt < now - 7 * 24 * 3600) ∧
    purgePeriodSec = 3600 := by
  refine ⟨?_, ?_, ?_, List.filter_sublist _, ?_, rfl⟩
  · intro s hs
    have := (List.mem_filter.mp hs).2
    simpa using this
  · intro s hs hlt
    exact List.mem_filter.mpr ⟨hs, by simpa using hlt⟩
  · intro s hs hlt hmem
    have := (List.mem_filter.mp hmem).2
    simp at this
    exact absurd hlt (not_lt.mpr this)
  · intro s
    simp [runPurgeTick, purgeCutoff, PurgeOlderThan, List.mem_filter]

/-- C8 witness: purging `[staleSample, freshSample]` with cutoff 5 removes the
stale sample and keeps the fresh one. -/
theorem c8_purge_retention_witness :
    staleSample ∉ PurgeOlderThan [staleSample, freshSample] 5 ∧
    freshSample ∈ PurgeOlderThan [staleSample, freshSample] 5 :=
  ⟨(c8_purge_retention [staleSample, freshSample] 5 0).2.2.1 staleSample (by decide)
      (by norm_num [staleSample]),
   (c8_purge_retention [staleSample, freshSample] 5 0).2.1 freshSample (by decide)
      (by norm_num [freshSample])⟩

/-
C10 — heartbeat with unknown agent id.
-/

/-- C10: a heartbeat whose `agent_id` matches no stored agent makes
`ValidateToken` surface the store's "agent not found" error, which the handler
maps to HTTP 401 with body "invalid token" (not 404); the agent table and the
bandwidth table are returned unchanged — no state is modified and no sample is
inserted. -/
theorem c10_heartbeat_unknown_agent (st : HeartbeatState) (agentID token : String)
    (rate now : ℚ) (h : ∀ a ∈ st.agents, a.id ≠ agentID) :
    AgentService.ValidateToken st.agents agentID token
      = Except.error "agent not found" ∧
    AgentHandler.Heartbeat st agentID token rate now
      = ({ status := 401, errorBody := some "invalid token" }, st) := by
  have hfind : st.agents.find? (fun a => a.id = agentID) = none := by
    rw [List.find?_eq_none]
    intro a ha
    simpa using h a ha
  constructor
  · simp [AgentService.ValidateToken, getAgent, hfind]
  · simp [AgentHandler.Heartbeat, AgentService.ValidateToken, getAgent, hfind]

/-- C10 witness: the theorem applied to a store holding only `agentA1` and a
heartbeat for the unknown id "ghost". -/
theorem c10_heartbeat_unknown_agent_witness :
    AgentService.ValidateToken hbState.agents "ghost" "tok"
      = Except.error "agent not found" ∧
    AgentHandler.Heartbeat hbState "ghost" "tok" 3 99
      = ({ status := 401, errorBody := some "invalid token" }, hbState) :=
  c10_heartbeat_unknown_agent hbState "ghost" "tok" 3 99 (by decide)

/-
C1 — terminal statuses under the task service.
-/

/-- Extract membership and the key equality from a successful `getTask`. -/
theorem getTask_ok_mem {tasks : List Task} {id : String} {t : Task}
    (h : getTask tasks id = Except.ok t) : t ∈ tasks ∧ t.id = id := by
  unfold getTask at h
  cases hf : tasks.find? (fun u => u.id = id) with
  | none => rw [hf] at h; cases h
  | some u =>
    rw [hf] at h
    cases h
    exact ⟨List.mem_of_find?_eq_some hf, by simpa using List.find?_some hf⟩

/-- C1 counterexample: `MarkRunning` has no status guard, so it moves a task
whose status is the terminal `done` back to `running` — terminal statuses are
not absorbing under every task-service operation. -/
theorem c1_counterexample :
    doneTask.status = TaskStatus.done ∧
    (TaskService.MarkRunning [doneTask] "t1" 5).map Task.status
      = [TaskStatus.running] := by
  constructor <;> decide

/-- C1 (amended): for a stored task in a terminal status, `Dispatch` and
`Stop` refuse with an error and the scheduler tick leaves the task unchanged,
but `MarkRunning` (like `MarkDone`/`MarkFailed`) performs its transition
unconditionally, putting the terminal task back into `running`. -/
theorem c1_terminal_absorbing_amended (tasks : List Task) (id : String) (now : ℚ)
    (t : Task) (hget : getTask tasks id = Except.ok t)
    (hterm : t.status = TaskStatus.done ∨ t.status = TaskStatus.failed ∨
      t.status = TaskStatus.stopped) :
    TaskService.Dispatch tasks id now = Except.error "task is not pending" ∧
    TaskService.Stop tasks id now = Except.error "task is already terminal" ∧
    tickTask now t = t ∧
    { t with status := TaskStatus.running, startedAt := some now, updatedAt := now }
      ∈ TaskService.MarkRunning tasks id now := by
  obtain ⟨hmem, hid⟩ := getTask_ok_mem hget
  have hnp : t.status ≠ TaskStatus.pending := by
    rcases hterm with h | h | h <;> simp [h]
  refine ⟨?_, ?_, ?_, ?_⟩
  · simp [TaskService.Dispatch, hget, hnp]
  · rcases hterm with h | h | h <;> simp [TaskService.Stop, hget, h]
  · rcases hterm with h | h | h <;> simp [tickTask, h]
  · have : ({ t with
        status := TaskStatus.running, startedAt := some now, updatedAt := now } : Task)
        = (if t.id = id then
            setTimeField { t with status := TaskStatus.running, updatedAt := now }
              TimeField.startedAtField now
          else t) := by
      rw [if_pos hid]
      rfl
    rw [this]
    exact List.mem_map_of_mem _ hmem

/-- C1 witness: the amended theorem applied to the singleton store holding the
done task. -/
theorem c1_terminal_absorbing_amended_witness :
    TaskService.Dispatch [doneTask] "t1" 5 = Except.error "task is not pending" ∧
    TaskService.Stop [doneTask] "t1" 5 = Except.error "task is already terminal" ∧
    tickTask 5 doneTask = doneTask ∧
    { doneTask with
      status := TaskStatus.running, startedAt := some (5 : ℚ), updatedAt := (5 : ℚ) }
      ∈ TaskService.MarkRunning [doneTask] "t1" 5 :=
  c1_terminal_absorbing_amended [doneTask] "t1" 5 doneTask rfl (Or.inl rfl)

/-
C2 — RecordMetrics and total_bytes_done.
-/

/-- C2 counterexample: a report whose `bytes_total` (50) is below the task's
stored `total_bytes_done` (100) is *not* ignored — `UpdateBytes` overwrites
unconditionally, so `total_bytes_done` decreases. -/
theorem c2_counterexample :
    state100.tasks.map Task.totalBytesDone = [100] ∧
    (TaskService.RecordMetrics state100 metric50 7).tasks.map Task.totalBytesDone
      = [50] := by
  constructor <;> decide

/-- C2 (amended): `RecordMetrics` stamps `recorded_at = now`, appends the
sample, and unconditionally overwrites the task's `total_bytes_done` with the
reported `bytes_total` (tasks with other ids are untouched); no monotonicity
check is performed, so smaller reports lower the counter. -/
theorem c2_record_metrics_amended (st : MasterState) (m : TaskMetrics) (now : ℚ) :
    (TaskService.RecordMetrics st m now).taskMetrics
      = st.taskMetrics ++ [{ m with recordedAt := now }] ∧
    (∀ t ∈ st.tasks, t.id = m.taskId →
      { t with totalBytesDone := m.bytesTotal, updatedAt := now }
        ∈ (TaskService.RecordMetrics st m now).tasks) ∧
    (∀ t ∈ st.tasks, t.id ≠ m.taskId →
      t ∈ (TaskService.RecordMetrics st m now).tasks) := by
  refine ⟨rfl, ?_, ?_⟩
  · intro t ht hid
    have : ({ t with totalBytesDone := m.bytesTotal, updatedAt := now } : Task)
        = (if t.id = m.taskId then
            { t with totalBytesDone := m.bytesTotal, updatedAt := now } else t) := by
      rw [if_pos hid]
    rw [this]
    exact List.mem_map_of_mem _ ht
  · intro t ht hid
    have hmem := List.mem_map_of_mem
      (fun u => if u.id = m.taskId then
        { u with totalBytesDone := m.bytesTotal, updatedAt := now } else u) ht
    simp only [] at hmem
    rw [if_neg hid] at hmem
    exact hmem

/-- C2 witness: the amended theorem applied to `state100` and `metric50`
exhibits the overwritten task row. -/
theorem c2_record_metrics_amended_witness :
    { task100 with totalBytesDone := (50 : ℤ), updatedAt := (7 : ℚ) }
      ∈ (TaskService.RecordMetrics state100 metric50 7).tasks :=
  (c2_record_metrics_amended state100 metric50 7).2.1 task100 (by decide) rfl

/-
C5 — multiplier bounds of RateForTask.
-/

/-- Bounds of the flat/ramp multiplier for nonnegative elapsed time. -/
theorem flatMultiplier_bounds (t : Task) (elapsed : ℚ) (he : 0 ≤ elapsed) :
    0 ≤ flatMultiplier t elapsed ∧ flatMultiplier t elapsed ≤ 1 := by
  unfold flatMultiplier
  set rampUp := ((t.rampUpSec : ℚ)) with hru
  set rampDown := ((t.rampDownSec : ℚ)) with hrd
  set totalDur := (match t.endAt, t.startedAt with
    | some e, some s => e - s
    | _, _ => ((t.durationSec : ℤ) : ℚ)) with htd
  dsimp only
  split_ifs with h1 h2 h3
  · have hpos : 0 < rampUp := lt_of_le_of_lt he h1
    exact ⟨div_nonneg he hpos.le, (div_le_one hpos).mpr h1.le⟩
  · norm_num
  · obtain ⟨hrd0, htd0, hel⟩ := h2
    have hrem : 0 < totalDur - elapsed := lt_of_not_ge (fun h => h3 (by linarith))
    have hlt : totalDur - elapsed < rampDown := by linarith
    exact ⟨div_nonneg hrem.le hrd0.le, (div_le_one hrd0).mpr hlt.le⟩
  · norm_num

/-- Bounds of the diurnal interpolation when every breakpoint percentage lies
in [0, 100]. -/
theorem diurnalInterp_bounds (sec : ℚ) (points : List ProfilePoint)
    (hp : ∀ p ∈ points, 0 ≤ p.ratePct ∧ p.ratePct ≤ 100) (v : ℚ)
    (hv : diurnalInterp sec points = some v) : 0 ≤ v ∧ v ≤ 1 := by
  induction points with
  | nil => simp [diurnalInterp] at hv
  | cons p0 rest ih =>
    cases rest with
    | nil => simp [diurnalInterp] at hv
    | cons p1 rest2 =>
      rw [diurnalInterp] at hv
      split_ifs at hv with h
      · obtain ⟨h0, h1⟩ := h
        have hv' : p0.ratePct / 100 +
            (sec - p0.offsetSec) / (p1.offsetSec - p0.offsetSec) *
              (p1.ratePct - p0.ratePct) / 100 = v := by
          injection hv
        obtain ⟨hp0l, hp0u⟩ := hp p0 (by simp)
        obtain ⟨hp1l, hp1u⟩ := hp p1 (by simp)
        by_cases heq : p1.offsetSec = p0.offsetSec
        · rw [← hv', heq, sub_self, div_zero, zero_mul, zero_div, add_zero]
          constructor
          · positivity
          · linarith
        · have hlt : p0.offsetSec < p1.offsetSec :=
            lt_of_le_of_ne (le_trans h0 h1) (Ne.symm heq)
          set frac := (sec - p0.offsetSec) / (p1.offsetSec - p0.offsetSec) with hfr
          have hfrac0 : 0 ≤ frac :=
            div_nonneg (by linarith) (by linarith)
          have hfrac1 : frac ≤ 1 :=
            (div_le_one (by linarith)).mpr (by linarith)
          rw [← hv']
          constructor
          · nlinarith [mul_nonneg hfrac0 hp1l,
              mul_nonneg (by linarith : (0:ℚ) ≤ 1 - frac) hp0l]
          · nlinarith [mul_nonneg hfrac0 (by linarith : (0:ℚ) ≤ 100 - p1.ratePct),
              mul_nonneg (by linarith : (0:ℚ) ≤ 1 - frac)
                (by linarith : (0:ℚ) ≤ 100 - p0.ratePct)]
      · exact ih (fun p hmem => hp p (List.mem_cons_of_mem _ hmem)) hv

/-- Bounds of the trailing breakpoint percentage. -/
theorem lastRatePct_bounds (points : List ProfilePoint)
    (hp : ∀ p ∈ points, 0 ≤ p.ratePct ∧ p.ratePct ≤ 100) :
    0 ≤ lastRatePct points ∧ lastRatePct points ≤ 100 := by
  induction points with
  | nil => simp [lastRatePct]
  | cons p rest ih =>
    cases rest with
    | nil => simpa [lastRatePct] using hp p (by simp)
    | cons q rest2 =>
      rw [lastRatePct]
      exact ih (fun r hr => hp r (List.mem_cons_of_mem _ hr))

/-- Bounds of the diurnal multiplier when every breakpoint percentage lies in
[0, 100]. -/
theorem diurnalMultiplier_bounds (points : List ProfilePoint) (elapsed : ℚ)
    (hp : ∀ p ∈ points, 0 ≤ p.ratePct ∧ p.ratePct ≤ 100) :
    0 ≤ diurnalMultiplier points elapsed ∧ diurnalMultiplier points elapsed ≤ 1 := by
  cases points with
  | nil => simp [diurnalMultiplier]
  | cons p rest =>
    rw [show diurnalMultiplier (p :: rest) elapsed =
        (match diurnalInterp elapsed (p :: rest) with
         | some v => v
         | none => lastRatePct (p :: rest) / 100) from rfl]
    cases hI : diurnalInterp elapsed (p :: rest) with
    | some v =>
      simpa using diurnalInterp_bounds elapsed (p :: rest) hp v hI
    | none =>
      obtain ⟨hl, hu⟩ := lastRatePct_bounds (p :: rest) hp
      constructor
      · positivity
      · rw [div_le_one (by norm_num : (0:ℚ) < 100)]
        exact hu

/-- C5 counterexample: with the diurnal distribution and breakpoints whose
`rate_pct` is 200, the multiplier at 5 s is the uninterpolated-and-unclamped
value 2, exceeding the claimed upper bound of 1. -/
theorem c5_counterexample :
    RateForTask diurnalTask 5 [⟨0, 200⟩, ⟨10, 200⟩] = 2 ∧
    ¬ RateForTask diurnalTask 5 [⟨0, 200⟩, ⟨10, 200⟩] ≤ 1 := by
  constructor <;>
    norm_num [RateForTask, diurnalTask, baseTask, diurnalMultiplier, diurnalInterp]

/-- C5 (amended): `RateForTask` stays in [0, 1] for nonnegative elapsed time
provided that, in the diurnal case, every profile point's `rate_pct` lies in
[0, 100]; with arbitrary `rate_pct` the diurnal multiplier is the interpolated
`rate_pct / 100` with no clamping and can leave [0, 1]. -/
theorem c5_rate_bounds_amended (t : Task) (elapsed : ℚ) (points : List ProfilePoint)
    (he : 0 ≤ elapsed)
    (hp : ∀ p ∈ points, 0 ≤ p.ratePct ∧ p.ratePct ≤ 100) :
    0 ≤ RateForTask t elapsed points ∧ RateForTask t elapsed points ≤ 1 := by
  unfold RateForTask
  cases t.distribution with
  | ramp => exact flatMultiplier_bounds t elapsed he
  | diurnal => exact diurnalMultiplier_bounds points elapsed hp
  | flat => exact flatMultiplier_bounds t elapsed he

/-- C5 witness: the amended bounds applied to the flat base task at 30 s with
an in-range diurnal profile available. -/
theorem c5_rate_bounds_amended_witness :
    0 ≤ RateForTask baseTask 30 [⟨0, 20⟩, ⟨30, 100⟩] ∧
    RateForTask baseTask 30 [⟨0, 20⟩, ⟨30, 100⟩] ≤ 1 :=
  c5_rate_bounds_amended baseTask 30 [⟨0, 20⟩, ⟨30, 100⟩] (by norm_num)
    (by intro p hp; fin_cases hp <;> norm_num)

/-
C6 — scheduler tick transitions.
-/

/-- shouldStart holds exactly when `start_at` is null or `start_at ≤ now`. -/
theorem shouldStart_iff (t : Task) (now : ℚ) :
    shouldStart t now = true ↔
      (t.startAt = none ∨ ∃ s, t.startAt = some s ∧ s ≤ now) := by
  cases h : t.startAt with
  | none => simp [shouldStart, h]
  | some s => simp [shouldStart, h, not_lt]

/-- shouldStop holds exactly when `end_at < now`, or the duration is positive
and exceeded since `started_at`, or a positive byte target has been reached. -/
theorem shouldStop_iff (t : Task) (now : ℚ) :
    shouldStop t now = true ↔
      ((∃ e, t.endAt = some e ∧ e < now) ∨
       (0 < t.durationSec ∧ ∃ s, t.startedAt = some s ∧
         (t.durationSec : ℚ) < now - s) ∨
       (0 < t.totalBytesTarget ∧ t.totalBytesTarget ≤ t.totalBytesDone)) := by
  cases he : t.endAt with
  | none =>
    cases hs : t.startedAt with
    | none => simp [shouldStop, he, hs]
    | some s => simp [shouldStop, he, hs]
  | some e =>
    cases hs : t.startedAt with
    | none => simp [shouldStop, he, hs]
    | some s => simp [shouldStop, he, hs, or_assoc]

/-- C6: each scheduler tick maps every task through `tickTask`; a
pending/dispatched task becomes running with `started_at = now` exactly when
`start_at` is null or `start_at ≤ now`; a running task becomes stopped with
`finished_at = now` exactly when `end_at < now`, or `duration_sec > 0` and
`now − started_at > duration_sec`, or `total_bytes_target > 0` and
`total_bytes_done ≥ total_bytes_target`; terminal tasks are unchanged. -/
theorem c6_scheduler_tick (now : ℚ) (tasks : List Task) (t : Task) (ht : t ∈ tasks) :
    tickTask now t ∈ Scheduler.tick now tasks ∧
    ((t.status = TaskStatus.pending ∨ t.status = TaskStatus.dispatched) →
      ((t.startAt = none ∨ ∃ s, t.startAt = some s ∧ s ≤ now) →
        tickTask now t = { t with
          status := TaskStatus.running, startedAt := some now, updatedAt := now }) ∧
      ((∃ s, t.startAt = some s ∧ now < s) → tickTask now t = t)) ∧
    (t.status = TaskStatus.running →
      (((∃ e, t.endAt = some e ∧ e < now) ∨
        (0 < t.durationSec ∧ ∃ s, t.startedAt = some s ∧
          (t.durationSec : ℚ) < now - s) ∨
        (0 < t.totalBytesTarget ∧ t.totalBytesTarget ≤ t.totalBytesDone)) →
        tickTask now t = { t with
          status := TaskStatus.stopped, finishedAt := some now, updatedAt := now }) ∧
      (¬((∃ e, t.endAt = some e ∧ e < now) ∨
        (0 < t.durationSec ∧ ∃ s, t.startedAt = some s ∧
          (t.durationSec : ℚ) < now - s) ∨
        (0 < t.totalBytesTarget ∧ t.totalBytesTarget ≤ t.totalBytesDone)) →
        tickTask now t = t)) ∧
    ((t.status = TaskStatus.done ∨ t.status = TaskStatus.failed ∨
      t.status = TaskStatus.stopped) → tickTask now t = t) := by
  refine ⟨List.mem_map_of_mem _ ht, ?_, ?_, ?_⟩
  · intro hpd
    constructor
    · intro hcond
      have hb : shouldStart t now = true := (shouldStart_iff t now).mpr hcond
      rcases hpd with h | h <;> simp [tickTask, h, hb]
    · rintro ⟨s, hs1, hs2⟩
      have hb : shouldStart t now = false := by
        cases hb2 : shouldStart t now
        · rfl
        · exfalso
          rcases (shouldStart_iff t now).mp hb2 with h | ⟨s2, h1, h2⟩
          · rw [hs1] at h; cases h
          · rw [hs1] at h1
            injection h1 with h1
            subst h1
            linarith
      rcases hpd with h | h <;> simp [tickTask, h, hb]
  · intro hrun
    constructor
    · intro hcond
      have hb : shouldStop t now = true := (shouldStop_iff t now).mpr hcond
      simp [tickTask, hrun, hb]
    · intro hcond
      have hb : shouldStop t now = false := by
        cases hb2 : shouldStop t now
        · rfl
        · exact absurd ((shouldStop_iff t now).mp hb2) hcond
      simp [tickTask, hrun, hb]
  · intro hterm
    rcases hterm with h | h | h <;> simp [tickTask, h]

/-- C6 witness: a pending task with no `start_at` is started by the tick. -/
theorem c6_scheduler_tick_witness :
    tickTask 5 baseTask ∈ Scheduler.tick 5 [baseTask] ∧
    tickTask 5 baseTask = { baseTask with
      status := TaskStatus.running, startedAt := some (5 : ℚ), updatedAt := (5 : ℚ) } :=
  ⟨(c6_scheduler_tick 5 [baseTask] baseTask (by decide)).1,
   ((c6_scheduler_tick 5 [baseTask] baseTask (by decide)).2.1 (Or.inl rfl)).1
     (Or.inl rfl)⟩

/-
C7 — provision job retry.
-/

/-- Extract membership and the key equality from a successful
`getProvisionJob`. -/
theorem getProvisionJob_ok_mem {jobs : List ProvisionJob} {id : String}
    {j : ProvisionJob} (h : getProvisionJob jobs id = Except.ok j) :
    j ∈ jobs ∧ j.id = id := by
  unfold getProvisionJob at h
  cases hf : jobs.find? (fun u => u.id = id) with
  | none => rw [hf] at h; cases h
  | some u =>
    rw [hf] at h
    cases h
    exact ⟨List.mem_of_find?_eq_some hf, by simpa using List.find?_some hf⟩

/-- C7: `Retry` errors — without touching the store or relaunching the
worker — whenever the job's status is not `failed`; on a failed job it
relaunches the worker, returns the job reset to pending/created, and the
stored row keeps `host_ip`, `ssh_port`, `ssh_user`, `auth_type`,
`credential_ref` and `created_at` while `status`, `current_step`, `log`,
`agent_id` and `failed_step` are reset; rows with other ids are unchanged. -/
theorem c7_retry (jobs : List ProvisionJob) (jobID : String) (now : ℚ)
    (job : ProvisionJob) (hget : getProvisionJob jobs jobID = Except.ok job) :
    (job.status ≠ ProvisionStatus.failed →
      ProvisionService.Retry jobs jobID now
        = { result := Except.error "only failed jobs can be retried",
            jobs := jobs, workerStarted := false }) ∧
    (job.status = ProvisionStatus.failed →
      (ProvisionService.Retry jobs jobID now).workerStarted = true ∧
      (ProvisionService.Retry jobs jobID now).result
        = Except.ok { job with
            status := ProvisionStatus.pending, currentStep := "created",
            log := "", failedStep := "" } ∧
      { job with
        status := ProvisionStatus.pending, currentStep := "created", log := "",
        agentId := "", failedStep := "", updatedAt := now }
        ∈ (ProvisionService.Retry jobs jobID now).jobs ∧
      (∀ j ∈ jobs, j.id ≠ jobID →
        j ∈ (ProvisionService.Retry jobs jobID now).jobs)) := by
  obtain ⟨hmem, hid⟩ := getProvisionJob_ok_mem hget
  constructor
  · intro hnf
    simp [ProvisionService.Retry, hget, hnf]
  · intro hf
    have hfn : ¬ job.status ≠ ProvisionStatus.failed := by simp [hf]
    refine ⟨?_, ?_, ?_, ?_⟩
    · simp [ProvisionService.Retry, hget, hfn]
    · simp [ProvisionService.Retry, hget, hfn]
    · have hjobs : (ProvisionService.Retry jobs jobID now).jobs
          = resetForRetry jobs jobID now := by
        simp [ProvisionService.Retry, hget, hfn]
      rw [hjobs]
      have hmem2 := List.mem_map_of_mem
        (fun u => if u.id = jobID then
          { u with
            status := ProvisionStatus.pending, currentStep := "created",
            log := "", agentId := "", failedStep := "", updatedAt := now }
          else u) hmem
      simp only [] at hmem2
      rw [if_pos hid] at hmem2
      exact hmem2
    · intro j hj hjid
      have hjobs : (ProvisionService.Retry jobs jobID now).jobs
          = resetForRetry jobs jobID now := by
        simp [ProvisionService.Retry, hget, hfn]
      rw [hjobs]
      have hmem2 := List.mem_map_of_mem
        (fun u => if u.id = jobID then
          { u with
            status := ProvisionStatus.pending, currentStep := "created",
            log := "", agentId := "", failedStep := "", updatedAt := now }
          else u) hj
      simp only [] at hmem2
      rw [if_neg hjid] at hmem2
      exact hmem2

/-- C7 witness: retrying the concrete failed job resets it, keeps its
connection fields, and relaunches the worker. -/
theorem c7_retry_witness :
    (ProvisionService.Retry [failedJob] "j1" 9).workerStarted = true ∧
    (ProvisionService.Retry [failedJob] "j1" 9).result
      = Except.ok { failedJob with
          status := ProvisionStatus.pending, currentStep := "created",
          log := "", failedStep := "" } ∧
    { failedJob with
      status := ProvisionStatus.pending, currentStep := "created", log := "",
      agentId := "", failedStep := "", updatedAt := (9 : ℚ) }
      ∈ (ProvisionService.Retry [failedJob] "j1" 9).jobs ∧
    (∀ j ∈ [failedJob], j.id ≠ "j1" →
      j ∈ (ProvisionService.Retry [failedJob] "j1" 9).jobs) :=
  (c7_retry [failedJob] "j1" 9 failedJob rfl).2 rfl

/-
C9 — token bucket at rate zero.
-/

/-- After `SetRate 0` the fill rate and capacity are zero and no tokens
remain. -/
theorem setRate_zero_state (tb : TokenBucket) :
    (tb.SetRate 0).rate = 0 ∧ (tb.SetRate 0).capacity = 0 ∧
    (tb.SetRate 0).tokens ≤ 0 := by
  unfold TokenBucket.SetRate
  norm_num
  split_ifs with h
  · exact le_refl 0
  · exact le_of_not_lt h

/-- With a zero fill rate and an empty bucket, the success branch of `Wait`
is unreachable for any positive request: the loop runs until the context
cancels. -/
theorem waitRun_zero_rate (n : ℤ) (hn : 0 < n) (elapses : List ℚ) :
    ∀ tb : TokenBucket, tb.rate = 0 → tb.tokens ≤ 0 →
      (tb.waitRun n elapses).isCtxErr = true := by
  induction elapses with
  | nil => intro tb h1 h2; rfl
  | cons e rest ih =>
    intro tb h1 h2
    have hrate : (tb.fill e).rate = 0 := by
      simp [TokenBucket.fill, h1]
    have htok : (tb.fill e).tokens ≤ 0 := by
      unfold TokenBucket.fill
      dsimp only
      rw [h1, mul_zero, add_zero]
      split_ifs with h
      · linarith
      · exact h2
    rw [TokenBucket.waitRun]
    rw [if_neg]
    · exact ih (tb.fill e) hrate htok
    · have hcast : (0 : ℚ) < (n : ℚ) := by exact_mod_cast hn
      push_neg
      linarith

/-- C9: `New` maps a rate ≤ 0 Mbps to the huge fill rate
`math.MaxFloat64 / 8` bytes/s (effectively unlimited), while `SetRate 0` sets
fill rate and capacity to 0; from then on `Wait(ctx, n)` with `n > 0` can
never take the success branch and ends only with the context's error,
whatever fill intervals the scheduler produces. -/
theorem c9_token_bucket_zero_rate (rateMbps burst : ℚ) (tb : TokenBucket)
    (n : ℤ) (elapses : List ℚ) (hr : rateMbps ≤ 0) (hn : 0 < n) :
    (TokenBucket.New rateMbps burst).rate = maxFloat64 / 8 ∧
    (10 : ℚ) ^ 300 < (TokenBucket.New rateMbps burst).rate ∧
    (tb.SetRate 0).rate = 0 ∧
    (tb.SetRate 0).capacity = 0 ∧
    ((tb.SetRate 0).waitRun n elapses).isCtxErr = true := by
  obtain ⟨hrt, hcap, htok⟩ := setRate_zero_state tb
  have hnew : (TokenBucket.New rateMbps burst).rate = maxFloat64 / 8 := by
    unfold TokenBucket.New
    dsimp only
    rw [if_pos hr]
    ring
  refine ⟨hnew, ?_, hrt, hcap, waitRun_zero_rate n hn elapses _ hrt htok⟩
  rw [hnew]
  norm_num [maxFloat64]

/-- C9 witness: the theorem applied at rate −3 Mbps, a live bucket, a 4096-byte
request and two fill intervals. -/
theorem c9_token_bucket_zero_rate_witness :
    (TokenBucket.New (-3) 1).rate = maxFloat64 / 8 ∧
    (10 : ℚ) ^ 300 < (TokenBucket.New (-3) 1).rate ∧
    ((TokenBucket.New 10 2).SetRate 0).rate = 0 ∧
    ((TokenBucket.New 10 2).SetRate 0).capacity = 0 ∧
    (((TokenBucket.New 10 2).SetRate 0).waitRun 4096 [1/2, 3]).isCtxErr = true :=
  c9_token_bucket_zero_rate (-3) 1 (TokenBucket.New 10 2) 4096 [1/2, 3]
    (by norm_num) (by norm_num)

end Ngoogle
